import Mathlib

/-!
# Verification of the `defer` library

A shallow embedding of the `defer` repository: a Go-style defer/recover
mechanism for JavaScript, in three variants:

* `SyncDeferer` (src/SyncDeferer.ts): a process-wide (static) stack of
  deferred actions, a re-entrancy flag, and a captured-error slot consulted
  by `recover`.
* `Deferer` (src/defer.ts, the plain synchronous variant): same stack and
  flag, but no captured-error slot and no `recover`; its `wrapper` has no
  catch clause.
* `AsyncDeferer` (src/AsyncDeferer.ts): per-instance state, structurally the
  same protocol as `SyncDeferer`; since the drain awaits each action to full
  completion before invoking the next, its sequential behaviour is embedded
  by the same state-threading discipline (each action is a function whose
  whole effect, suspension included, is applied before the next runs).

JavaScript errors are modelled by `Err` (a name tag plus a message, the two
fields `toString` interpolates).  Mutable fields of the class become a state
record threaded through every operation.  A deferred action is a function of
the user-visible environment `σ` and the captured error; it returns the
updated environment, the updated captured error (so it can call `recover`,
whose whole observable effect is on that slot), and optionally an error it
throws.  A body (and hence also a wrapped function) is a function of the full
controller state, returning the updated state and either a value or a thrown
error.  The JS array with push/pop at the end is represented by a list whose
head is the top (most recently pushed) element.
-/

/-- A JavaScript `Error`: its `name` tag and its `message`. -/
structure Err where
  name : String
  message : String
deriving DecidableEq, Repr

/-- String interpolation of a JS `Error` (`Error.prototype.toString`):
`name + ": " + message`. -/
def errString (e : Err) : String := e.name ++ ": " ++ e.message

namespace SyncDeferer

/-- Result of invoking one deferred action: the updated user environment,
the updated captured-error slot (`recover` clears it), and the error the
action threw, if any (its side effects up to the throw persist). -/
structure ARes (σ : Type) where
  user : σ
  currentError : Option Err
  thrown : Option Err

/-- A deferred action (`DeferredFunction`): reads the user environment and —
only through `recover` — the captured-error slot. -/
abbrev DAction (σ : Type) := σ → Option Err → ARes σ

/-- The static state of `SyncDeferer`: `stack`, `wrapped`, `currentError`,
plus the user-visible environment the actions and bodies mutate.
The list head is the top of the JS array (most recently pushed). -/
structure St (σ : Type) where
  stack : List (DAction σ)
  wrapped : Bool
  currentError : Option Err
  user : σ

/-- The state at module load: empty stack, flag down, no captured error. -/
def initSt {σ : Type} (u : σ) : St σ := ⟨[], false, none, u⟩

/-- `SyncDeferer.defer`: push onto the stack. -/
def defer {σ : Type} (fn : DAction σ) (s : St σ) : St σ :=
  { s with stack := fn :: s.stack }

/-- `new ExecutionError("Error in deferred function: " + err)` with `name`
set to `"ExecutionError"` by the class constructor. -/
def executionError (e : Err) : Err :=
  ⟨"ExecutionError", "Error in deferred function: " ++ errString e⟩

/-- The `NestedSyncDefererError` thrown on re-entrancy. -/
def nestedError : Err :=
  ⟨"NestedSyncDefererError", "Nested SyncDeferers are not supported"⟩

/-- Outcome of the `execute` while-loop: the stack that remains (non-empty
when the loop was escaped by a throw), the final user environment and
captured-error slot, and the `ExecutionError` thrown, if any. -/
structure ExecOut (σ : Type) where
  stack : List (DAction σ)
  user : σ
  currentError : Option Err
  thrown : Option Err

/-- The body of `SyncDeferer.execute`: while the stack is non-empty, pop the
top action and invoke it; if it throws, throw an `ExecutionError` wrapping
the message (the popped action is gone, the rest of the stack remains). -/
def executeLoop {σ : Type} :
    List (DAction σ) → σ → Option Err → ExecOut σ
  | [], u, c => ⟨[], u, c, none⟩
  | fn :: rest, u, c =>
    let r := fn u c
    match r.thrown with
    | some e => ⟨rest, r.user, r.currentError, some (executionError e)⟩
    | none => executeLoop rest r.user r.currentError

/-- `SyncDeferer.execute` as a step on the whole state. -/
def execute {σ : Type} (s : St σ) : St σ × Option Err :=
  let r := executeLoop s.stack s.user s.currentError
  (⟨r.stack, s.wrapped, r.currentError, r.user⟩, r.thrown)

/-- A wrapped body: receives the controller state (it may `defer`, mutate the
environment, or call another wrapped function) and returns the new state and
either its value or the error it throws. -/
abbrev Body (σ ρ : Type) := St σ → St σ × Except Err ρ

/-- The catch block of `SyncDeferer.wrapper`, reached both when the body
throws and when the post-success drain throws (the `catch` covers the whole
try block): capture the caught error in the slot, drain the stack that is
left (every action may observe or `recover` the captured error), re-raise
the captured error if the slot is still set, else return `undefined`
(`.ok none`); if this drain itself throws, that error propagates.  The
`finally` clause has already been folded in: `wrapped` is `false` in every
returned state. -/
def catchBlock {σ ρ : Type} (stack : List (DAction σ)) (u : σ) (err : Err) :
    St σ × Except Err (Option ρ) :=
  let r := executeLoop stack u (some err)
  let s3 : St σ := ⟨r.stack, false, r.currentError, r.user⟩
  match r.thrown with
  | some e => (s3, .error e)
  | none =>
    match r.currentError with
    | some ce => (s3, .error ce)
    | none => (s3, .ok none)

/-- `SyncDeferer.wrapper`: the callable it returns.  Re-entrancy check, flag
up, captured error reset; run the body; on normal return drain and return
the value.  The `catch` clause covers the body *and* that drain: if either
throws, the thrown error is captured, the remaining stack is drained with
recovery possible, and the captured error is re-raised if still set
(`undefined` is returned if it was recovered); the `finally` clause resets
the flag on every path. -/
def wrapper {σ ρ : Type} (cp : Body σ ρ) :
    St σ → St σ × Except Err (Option ρ) := fun s =>
  if s.wrapped then
    (s, .error nestedError)
  else
    let s1 : St σ := { s with wrapped := true, currentError := none }
    match cp s1 with
    | (s2, .ok v) =>
      let r := executeLoop s2.stack s2.user s2.currentError
      match r.thrown with
      | none => (⟨r.stack, false, r.currentError, r.user⟩, .ok (some v))
      | some e => catchBlock r.stack r.user e
    | (s2, .error err) => catchBlock s2.stack s2.user err

/-- `SyncDeferer.recover`: if an error is captured, clear the slot and return
it; otherwise return null and leave the state alone. -/
def recover {σ : Type} (s : St σ) : St σ × Option Err :=
  match s.currentError with
  | some e => ({ s with currentError := none }, some e)
  | none => (s, none)

end SyncDeferer

namespace AsyncDeferer

/-- Result of awaiting one deferred action of an `AsyncDeferer` instance:
its full effect (suspensions included) on the user environment and the
captured-error slot, and the error it threw, if any. -/
structure ARes (σ : Type) where
  user : σ
  currentError : Option Err
  thrown : Option Err

/-- An `AsyncDeferredFunction`, embedded by its complete effect: the drain
awaits each action before invoking the next, so each action is a function
whose whole effect is applied atomically in the sequential model. -/
abbrev DAction (σ : Type) := σ → Option Err → ARes σ

/-- The private instance state of `AsyncDeferer`: `stack`, `wrapped`,
`currentError`, plus the user environment.  List head = array top. -/
structure St (σ : Type) where
  stack : List (DAction σ)
  wrapped : Bool
  currentError : Option Err
  user : σ

/-- The state at instance construction. -/
def initSt {σ : Type} (u : σ) : St σ := ⟨[], false, none, u⟩

/-- `AsyncDeferer.defer`: push onto the instance stack. -/
def defer {σ : Type} (fn : DAction σ) (s : St σ) : St σ :=
  { s with stack := fn :: s.stack }

/-- `new AsyncExecutionError("Error in deferred function: " + err)`. -/
def executionError (e : Err) : Err :=
  ⟨"AsyncExecutionError", "Error in deferred function: " ++ errString e⟩

/-- The `AsyncNestedDefererError` thrown on re-entrancy. -/
def nestedError : Err :=
  ⟨"AsyncNestedDefererError", "Nested async defer calls are not supported"⟩

/-- Outcome of the `execute` while-loop (as in the sync variant). -/
structure ExecOut (σ : Type) where
  stack : List (DAction σ)
  user : σ
  currentError : Option Err
  thrown : Option Err

/-- The body of `AsyncDeferer.execute`: pop and `await fn()` one action at a
time; a throw is wrapped in an `AsyncExecutionError` and stops the loop with
the rest of the stack intact. -/
def executeLoop {σ : Type} :
    List (DAction σ) → σ → Option Err → ExecOut σ
  | [], u, c => ⟨[], u, c, none⟩
  | fn :: rest, u, c =>
    let r := fn u c
    match r.thrown with
    | some e => ⟨rest, r.user, r.currentError, some (executionError e)⟩
    | none => executeLoop rest r.user r.currentError

/-- `AsyncDeferer.execute` as a step on the whole instance state. -/
def execute {σ : Type} (s : St σ) : St σ × Option Err :=
  let r := executeLoop s.stack s.user s.currentError
  (⟨r.stack, s.wrapped, r.currentError, r.user⟩, r.thrown)

/-- A wrapped async body, embedded by its awaited result. -/
abbrev Body (σ ρ : Type) := St σ → St σ × Except Err ρ

/-- The catch block of `AsyncDeferer.asyncWrapper`, reached both when the
body rejects and when the post-success drain throws (the `catch` covers the
whole try block): capture the caught error, drain the stack that is left
with recovery possible, re-raise the captured error if still set, else
resolve with `undefined`; a throw of this drain propagates.  `wrapped` is
already reset (`finally`). -/
def catchBlock {σ ρ : Type} (stack : List (DAction σ)) (u : σ) (err : Err) :
    St σ × Except Err (Option ρ) :=
  let r := executeLoop stack u (some err)
  let s3 : St σ := ⟨r.stack, false, r.currentError, r.user⟩
  match r.thrown with
  | some e => (s3, .error e)
  | none =>
    match r.currentError with
    | some ce => (s3, .error ce)
    | none => (s3, .ok none)

/-- `AsyncDeferer.asyncWrapper`: the async callable it returns, embedded by
the awaited outcome of one invocation.  Structure identical to the sync
wrapper: re-entrancy check, flag up, captured error reset, body, drain and
return, with the `catch` covering both the body and the post-success drain
(capture, second drain with recovery possible, re-raise or swallow) and
`finally` resetting the flag. -/
def asyncWrapper {σ ρ : Type} (fn : Body σ ρ) :
    St σ → St σ × Except Err (Option ρ) := fun s =>
  if s.wrapped then
    (s, .error nestedError)
  else
    let s1 : St σ := { s with wrapped := true, currentError := none }
    match fn s1 with
    | (s2, .ok v) =>
      let r := executeLoop s2.stack s2.user s2.currentError
      match r.thrown with
      | none => (⟨r.stack, false, r.currentError, r.user⟩, .ok (some v))
      | some e => catchBlock r.stack r.user e
    | (s2, .error err) => catchBlock s2.stack s2.user err

/-- `AsyncDeferer.recover`: return and clear the captured error, or null. -/
def recover {σ : Type} (s : St σ) : St σ × Option Err :=
  match s.currentError with
  | some e => ({ s with currentError := none }, some e)
  | none => (s, none)

end AsyncDeferer

namespace Deferer

/-- Result of invoking one deferred action of the plain `Deferer` variant
(src/defer.ts): this variant has no captured-error slot and no `recover`, so
an action only mutates the user environment and may throw. -/
structure ARes (σ : Type) where
  user : σ
  thrown : Option Err

/-- A `DeferredFunction` of the plain variant. -/
abbrev DAction (σ : Type) := σ → ARes σ

/-- The static state of `Deferer`: `stack` and `wrapped` only. -/
structure St (σ : Type) where
  stack : List (DAction σ)
  wrapped : Bool
  user : σ

/-- The state at module load. -/
def initSt {σ : Type} (u : σ) : St σ := ⟨[], false, u⟩

/-- `Deferer.defer`: push onto the stack. -/
def defer {σ : Type} (fn : DAction σ) (s : St σ) : St σ :=
  { s with stack := fn :: s.stack }

/-- `new ExecutionError("Error in deferred function: " + err)`. -/
def executionError (e : Err) : Err :=
  ⟨"ExecutionError", "Error in deferred function: " ++ errString e⟩

/-- The `NestedDefererError` thrown on re-entrancy. -/
def nestedError : Err :=
  ⟨"NestedDefererError", "Nested deferers are not supported"⟩

/-- Outcome of the `execute` while-loop of the plain variant. -/
structure ExecOut (σ : Type) where
  stack : List (DAction σ)
  user : σ
  thrown : Option Err

/-- The while-loop of `Deferer.execute`. -/
def executeLoop {σ : Type} : List (DAction σ) → σ → ExecOut σ
  | [], u => ⟨[], u, none⟩
  | fn :: rest, u =>
    let r := fn u
    match r.thrown with
    | some e => ⟨rest, r.user, some (executionError e)⟩
    | none => executeLoop rest r.user

/-- `Deferer.execute`: run the loop; the trailing `this.wrapped = false`
statement runs only when the loop finishes without a throw. -/
def execute {σ : Type} (s : St σ) : St σ × Option Err :=
  let r := executeLoop s.stack s.user
  match r.thrown with
  | some e => (⟨r.stack, s.wrapped, r.user⟩, some e)
  | none => (⟨r.stack, false, r.user⟩, none)

/-- A wrapped body of the plain variant. -/
abbrev Body (σ ρ : Type) := St σ → St σ × Except Err ρ

/-- `Deferer.wrapper`: the callable it returns.  NOTE the absence of a catch
clause in the source: when the body throws, `execute` is never called — the
`finally` clause only resets the flag and the error propagates with the
deferred actions still on the stack. -/
def wrapper {σ ρ : Type} (cp : Body σ ρ) :
    St σ → St σ × Except Err ρ := fun s =>
  if s.wrapped then
    (s, .error nestedError)
  else
    let s1 : St σ := { s with wrapped := true }
    match cp s1 with
    | (s2, .ok v) =>
      let (s3, thr) := execute s2
      match thr with
      | some e => ({ s3 with wrapped := false }, .error e)
      | none => ({ s3 with wrapped := false }, .ok v)
    | (s2, .error err) => ({ s2 with wrapped := false }, .error err)

end Deferer

/-! ## Behaviour classes of deferred actions, and drain lemmas -/

namespace SyncDeferer

/-- An action that never throws. -/
def Tame {σ : Type} (a : DAction σ) : Prop := ∀ u c, (a u c).thrown = none

/-- An action that does not call `recover`: the captured-error slot is
returned untouched. -/
def NoRecover {σ : Type} (a : DAction σ) : Prop := ∀ u c, (a u c).currentError = c

/-- An action whose last interaction with the captured-error slot is a
`recover` call: the slot is clear when it returns. -/
def Clears {σ : Type} (a : DAction σ) : Prop := ∀ u c, (a u c).currentError = none

/-- An action that throws `e`. -/
def Throws {σ : Type} (a : DAction σ) (e : Err) : Prop := ∀ u c, (a u c).thrown = some e

/-- Sequential application of a list of actions (top of stack first),
threading the user environment and the captured-error slot. -/
def applyList {σ : Type} : List (DAction σ) → σ → Option Err → σ × Option Err
  | [], u, c => (u, c)
  | a :: rest, u, c => applyList rest (a u c).user (a u c).currentError

/-- A drain of throw-free actions runs them all, in stack order, and leaves
the stack empty. -/
lemma executeLoop_tame {σ : Type} :
    ∀ (l : List (DAction σ)), (∀ a ∈ l, Tame a) → ∀ u c,
      executeLoop l u c = ⟨[], (applyList l u c).1, (applyList l u c).2, none⟩
  | [], _, _, _ => rfl
  | a :: rest, h, u, c => by
    have ha : (a u c).thrown = none := h a (List.mem_cons_self _ _) u c
    rw [executeLoop, applyList]
    simp only [ha]
    exact executeLoop_tame rest (fun x hx => h x (List.mem_cons_of_mem _ hx)) _ _

/-- Draining past a throw-free prefix continues on the rest of the stack. -/
lemma executeLoop_append {σ : Type} :
    ∀ (pre : List (DAction σ)), (∀ a ∈ pre, Tame a) → ∀ rest u c,
      executeLoop (pre ++ rest) u c =
        executeLoop rest (applyList pre u c).1 (applyList pre u c).2
  | [], _, _, _, _ => rfl
  | a :: pre, h, rest, u, c => by
    have ha : (a u c).thrown = none := h a (List.mem_cons_self _ _) u c
    rw [List.cons_append, executeLoop, applyList]
    simp only [ha]
    exact executeLoop_append pre (fun x hx => h x (List.mem_cons_of_mem _ hx)) _ _ _

/-- Actions that never touch the captured-error slot leave it as it was. -/
lemma applyList_noRecover {σ : Type} :
    ∀ (l : List (DAction σ)), (∀ a ∈ l, NoRecover a) → ∀ u c,
      (applyList l u c).2 = c
  | [], _, _, _ => rfl
  | a :: rest, h, u, c => by
    rw [applyList, h a (List.mem_cons_self _ _) u c]
    exact applyList_noRecover rest (fun x hx => h x (List.mem_cons_of_mem _ hx)) _ _

/-- Once the captured-error slot is clear, actions that either leave it
alone or clear it keep it clear. -/
lemma applyList_none {σ : Type} :
    ∀ (l : List (DAction σ)), (∀ a ∈ l, NoRecover a ∨ Clears a) → ∀ u,
      (applyList l u none).2 = none
  | [], _, _ => rfl
  | a :: rest, h, u => by
    have ha : (a u none).currentError = none := by
      rcases h a (List.mem_cons_self _ _) with hn | hc
      · exact hn u none
      · exact hc u none
    rw [applyList, ha]
    exact applyList_none rest (fun x hx => h x (List.mem_cons_of_mem _ hx)) _

/-- If every action leaves the captured-error slot alone or clears it, and at
least one clears it, the slot is clear at the end of the pass. -/
lemma applyList_clears {σ : Type} :
    ∀ (l : List (DAction σ)), (∀ a ∈ l, NoRecover a ∨ Clears a) →
      (∃ a ∈ l, Clears a) → ∀ u c, (applyList l u c).2 = none
  | [], _, hx, _, _ => absurd hx (by simp)
  | a :: rest, h, hx, u, c => by
    have hrest : ∀ x ∈ rest, NoRecover x ∨ Clears x :=
      fun x hxm => h x (List.mem_cons_of_mem _ hxm)
    rcases hx with ⟨x, hxm, hxc⟩
    rcases List.mem_cons.mp hxm with rfl | hxm
    · rw [applyList, hxc u c]
      exact applyList_none rest hrest _
    · rcases h a (List.mem_cons_self _ _) with hn | hc
      · rw [applyList, hn u c]
        exact applyList_clears rest hrest ⟨x, hxm, hxc⟩ _ _
      · rw [applyList, hc u c]
        exact applyList_none rest hrest _

/-- The logging action with index `i`: appends `i` to the log. -/
def logAct (i : Nat) : DAction (List Nat) := fun u c => ⟨u ++ [i], c, none⟩

/-- Register `logAct i` via `defer` for each `i` of `l`, in order. -/
def registerAll (l : List Nat) (s : St (List Nat)) : St (List Nat) :=
  l.foldl (fun s i => defer (logAct i) s) s

lemma registerAll_stack :
    ∀ (l : List Nat) (s : St (List Nat)),
      registerAll l s =
        ⟨l.reverse.map logAct ++ s.stack, s.wrapped, s.currentError, s.user⟩
  | [], s => rfl
  | i :: l, s => by
    rw [registerAll, List.foldl_cons, ← registerAll, registerAll_stack l]
    simp [defer]

/-- Draining a stack of logging actions appends their indices in stack
order and empties the stack. -/
lemma executeLoop_log :
    ∀ (l : List Nat) (u : List Nat) (c : Option Err),
      executeLoop (l.map logAct) u c = ⟨[], u ++ l, c, none⟩
  | [], u, _ => by simp [executeLoop]
  | i :: l, u, c => by
    rw [List.map_cons, executeLoop]
    simp only [logAct]
    rw [executeLoop_log l]
    simp

end SyncDeferer

namespace AsyncDeferer

/-- An action that never throws. -/
def Tame {σ : Type} (a : DAction σ) : Prop := ∀ u c, (a u c).thrown = none

/-- An action that does not call `recover`. -/
def NoRecover {σ : Type} (a : DAction σ) : Prop := ∀ u c, (a u c).currentError = c

/-- An action whose last interaction with the captured-error slot is a
`recover` call. -/
def Clears {σ : Type} (a : DAction σ) : Prop := ∀ u c, (a u c).currentError = none

/-- An action that throws `e`. -/
def Throws {σ : Type} (a : DAction σ) (e : Err) : Prop := ∀ u c, (a u c).thrown = some e

/-- Sequential, one-at-a-time application of a list of actions (top first):
each action's full effect is applied before the next starts. -/
def applyList {σ : Type} : List (DAction σ) → σ → Option Err → σ × Option Err
  | [], u, c => (u, c)
  | a :: rest, u, c => applyList rest (a u c).user (a u c).currentError

/-- A drain of throw-free actions awaits them all, in stack order, and
leaves the stack empty. -/
lemma executeLoop_tame_async {σ : Type} :
    ∀ (l : List (DAction σ)), (∀ a ∈ l, Tame a) → ∀ u c,
      executeLoop l u c = ⟨[], (applyList l u c).1, (applyList l u c).2, none⟩
  | [], _, _, _ => rfl
  | a :: rest, h, u, c => by
    have ha : (a u c).thrown = none := h a (List.mem_cons_self _ _) u c
    rw [executeLoop, applyList]
    simp only [ha]
    exact executeLoop_tame_async rest (fun x hx => h x (List.mem_cons_of_mem _ hx)) _ _

/-- Draining past a throw-free prefix continues on the rest of the stack. -/
lemma executeLoop_append_async {σ : Type} :
    ∀ (pre : List (DAction σ)), (∀ a ∈ pre, Tame a) → ∀ rest u c,
      executeLoop (pre ++ rest) u c =
        executeLoop rest (applyList pre u c).1 (applyList pre u c).2
  | [], _, _, _, _ => rfl
  | a :: pre, h, rest, u, c => by
    have ha : (a u c).thrown = none := h a (List.mem_cons_self _ _) u c
    rw [List.cons_append, executeLoop, applyList]
    simp only [ha]
    exact executeLoop_append_async pre (fun x hx => h x (List.mem_cons_of_mem _ hx)) _ _ _

/-- Actions that never touch the captured-error slot leave it as it was. -/
lemma applyList_noRecover_async {σ : Type} :
    ∀ (l : List (DAction σ)), (∀ a ∈ l, NoRecover a) → ∀ u c,
      (applyList l u c).2 = c
  | [], _, _, _ => rfl
  | a :: rest, h, u, c => by
    rw [applyList, h a (List.mem_cons_self _ _) u c]
    exact applyList_noRecover_async rest (fun x hx => h x (List.mem_cons_of_mem _ hx)) _ _

/-- Once the captured-error slot is clear, actions that leave it alone or
clear it keep it clear. -/
lemma applyList_none_async {σ : Type} :
    ∀ (l : List (DAction σ)), (∀ a ∈ l, NoRecover a ∨ Clears a) → ∀ u,
      (applyList l u none).2 = none
  | [], _, _ => rfl
  | a :: rest, h, u => by
    have ha : (a u none).currentError = none := by
      rcases h a (List.mem_cons_self _ _) with hn | hc
      · exact hn u none
      · exact hc u none
    rw [applyList, ha]
    exact applyList_none_async rest (fun x hx => h x (List.mem_cons_of_mem _ hx)) _

/-- If every action leaves the captured-error slot alone or clears it, and
at least one clears it, the slot is clear at the end of the pass. -/
lemma applyList_clears_async {σ : Type} :
    ∀ (l : List (DAction σ)), (∀ a ∈ l, NoRecover a ∨ Clears a) →
      (∃ a ∈ l, Clears a) → ∀ u c, (applyList l u c).2 = none
  | [], _, hx, _, _ => absurd hx (by simp)
  | a :: rest, h, hx, u, c => by
    have hrest : ∀ x ∈ rest, NoRecover x ∨ Clears x :=
      fun x hxm => h x (List.mem_cons_of_mem _ hxm)
    rcases hx with ⟨x, hxm, hxc⟩
    rcases List.mem_cons.mp hxm with rfl | hxm
    · rw [applyList, hxc u c]
      exact applyList_none_async rest hrest _
    · rcases h a (List.mem_cons_self _ _) with hn | hc
      · rw [applyList, hn u c]
        exact applyList_clears_async rest hrest ⟨x, hxm, hxc⟩ _ _
      · rw [applyList, hc u c]
        exact applyList_none_async rest hrest _

/-- The async logging action with index `i`. -/
def logAct (i : Nat) : DAction (List Nat) := fun u c => ⟨u ++ [i], c, none⟩

/-- Register `logAct i` via `defer` for each `i` of `l`, in order. -/
def registerAll (l : List Nat) (s : St (List Nat)) : St (List Nat) :=
  l.foldl (fun s i => defer (logAct i) s) s

lemma registerAll_stack_async :
    ∀ (l : List Nat) (s : St (List Nat)),
      registerAll l s =
        ⟨l.reverse.map logAct ++ s.stack, s.wrapped, s.currentError, s.user⟩
  | [], s => rfl
  | i :: l, s => by
    rw [registerAll, List.foldl_cons, ← registerAll, registerAll_stack_async l]
    simp [defer]

/-- Draining a stack of async logging actions appends their indices in
stack order and empties the stack. -/
lemma executeLoop_log_async :
    ∀ (l : List Nat) (u : List Nat) (c : Option Err),
      executeLoop (l.map logAct) u c = ⟨[], u ++ l, c, none⟩
  | [], u, _ => by simp [executeLoop]
  | i :: l, u, c => by
    rw [List.map_cons, executeLoop]
    simp only [logAct]
    rw [executeLoop_log_async l]
    simp

end AsyncDeferer

/-! ## Characterizations of one wrapped invocation -/

namespace SyncDeferer

/-- A wrapped call whose body returns `v` normally, with a throw-free stack:
the whole stack is drained (in order, leaving it empty) and `v` is returned. -/
lemma wrapper_ok_tame {σ ρ : Type} (cp : Body σ ρ) (s s2 : St σ) (v : ρ)
    (hw : s.wrapped = false)
    (hcp : cp { s with wrapped := true, currentError := none } = (s2, Except.ok v))
    (htame : ∀ a ∈ s2.stack, Tame a) :
    wrapper cp s =
      (⟨[], false, (applyList s2.stack s2.user s2.currentError).2,
        (applyList s2.stack s2.user s2.currentError).1⟩, Except.ok (some v)) := by
  have hexec := executeLoop_tame s2.stack htame s2.user s2.currentError
  simp only [wrapper, hw, Bool.false_eq_true, if_false, hcp, hexec]

/-- A wrapped call whose body throws `E`, with a throw-free stack after
which the captured-error slot holds `F`: the whole stack is drained and `F`
is re-raised (with no `recover` call, `F` is `E` itself, unchanged). -/
lemma wrapper_err_tame_rethrow {σ ρ : Type} (cp : Body σ ρ) (s s2 : St σ) (E F : Err)
    (hw : s.wrapped = false)
    (hcp : cp { s with wrapped := true, currentError := none } = (s2, Except.error E))
    (htame : ∀ a ∈ s2.stack, Tame a)
    (hcur : (applyList s2.stack s2.user (some E)).2 = some F) :
    wrapper cp s =
      (⟨[], false, some F, (applyList s2.stack s2.user (some E)).1⟩,
        Except.error F) := by
  have hexec := executeLoop_tame s2.stack htame s2.user (some E)
  simp only [wrapper, catchBlock, hw, Bool.false_eq_true, if_false, hcp, hexec, hcur]

/-- A wrapped call whose body throws `E`, with a throw-free stack in which
some action recovered: the whole stack is drained and the call returns the
`undefined` result instead of raising. -/
lemma wrapper_err_tame_swallow {σ ρ : Type} (cp : Body σ ρ) (s s2 : St σ) (E : Err)
    (hw : s.wrapped = false)
    (hcp : cp { s with wrapped := true, currentError := none } = (s2, Except.error E))
    (htame : ∀ a ∈ s2.stack, Tame a)
    (hcur : (applyList s2.stack s2.user (some E)).2 = none) :
    wrapper cp s =
      (⟨[], false, none, (applyList s2.stack s2.user (some E)).1⟩,
        Except.ok none) := by
  have hexec := executeLoop_tame s2.stack htame s2.user (some E)
  simp only [wrapper, catchBlock, hw, Bool.false_eq_true, if_false, hcp, hexec, hcur]

/-- The state a wrapped call leaves behind when its body throws `E` and the
stack is throw-free: the stack is fully drained and every action's effect is
applied, whatever the captured-error slot ends up holding. -/
lemma wrapper_err_tame_state {σ ρ : Type} (cp : Body σ ρ) (s s2 : St σ) (E : Err)
    (hw : s.wrapped = false)
    (hcp : cp { s with wrapped := true, currentError := none } = (s2, Except.error E))
    (htame : ∀ a ∈ s2.stack, Tame a) :
    (wrapper cp s).1 =
      ⟨[], false, (applyList s2.stack s2.user (some E)).2,
        (applyList s2.stack s2.user (some E)).1⟩ := by
  cases hcur : (applyList s2.stack s2.user (some E)).2 with
  | none => rw [wrapper_err_tame_swallow cp s s2 E hw hcp htame hcur]
  | some F => rw [wrapper_err_tame_rethrow cp s s2 E F hw hcp htame hcur]

/-- A wrapped call whose body throws `E` and whose drain hits a throwing
action `bad` after a throw-free prefix: the drain stops there (the actions
below `bad` stay on the stack) and the `ExecutionError` propagates, whatever
the captured-error slot holds. -/
lemma wrapper_err_drainThrow {σ ρ : Type} (cp : Body σ ρ) (s s2 : St σ) (E e : Err)
    (pre post : List (DAction σ)) (bad : DAction σ)
    (hw : s.wrapped = false)
    (hcp : cp { s with wrapped := true, currentError := none } = (s2, Except.error E))
    (hstack : s2.stack = pre ++ bad :: post)
    (hpre : ∀ a ∈ pre, Tame a)
    (hbad : Throws bad e) :
    wrapper cp s =
      (⟨post, false,
        (bad (applyList pre s2.user (some E)).1 (applyList pre s2.user (some E)).2).currentError,
        (bad (applyList pre s2.user (some E)).1 (applyList pre s2.user (some E)).2).user⟩,
        Except.error (executionError e)) := by
  have happ := executeLoop_append pre hpre (bad :: post) s2.user (some E)
  have hb := hbad (applyList pre s2.user (some E)).1 (applyList pre s2.user (some E)).2
  simp only [wrapper, catchBlock, hw, Bool.false_eq_true, if_false, hcp, hstack, happ,
    executeLoop, hb]

end SyncDeferer

namespace AsyncDeferer

/-- An awaited wrapped call whose body resolves with `v`, with a throw-free
stack: the whole stack is drained and `v` is returned. -/
lemma asyncWrapper_ok_tame {σ ρ : Type} (fn : Body σ ρ) (s s2 : St σ) (v : ρ)
    (hw : s.wrapped = false)
    (hfn : fn { s with wrapped := true, currentError := none } = (s2, Except.ok v))
    (htame : ∀ a ∈ s2.stack, Tame a) :
    asyncWrapper fn s =
      (⟨[], false, (applyList s2.stack s2.user s2.currentError).2,
        (applyList s2.stack s2.user s2.currentError).1⟩, Except.ok (some v)) := by
  have hexec := executeLoop_tame_async s2.stack htame s2.user s2.currentError
  simp only [asyncWrapper, hw, Bool.false_eq_true, if_false, hfn, hexec]

/-- An awaited wrapped call whose body rejects with `E`, with a throw-free
stack after which the captured-error slot holds `F`: drained, then `F`
re-raised (with no `recover` call, `F` is `E` itself, unchanged). -/
lemma asyncWrapper_err_tame_rethrow {σ ρ : Type} (fn : Body σ ρ) (s s2 : St σ) (E F : Err)
    (hw : s.wrapped = false)
    (hfn : fn { s with wrapped := true, currentError := none } = (s2, Except.error E))
    (htame : ∀ a ∈ s2.stack, Tame a)
    (hcur : (applyList s2.stack s2.user (some E)).2 = some F) :
    asyncWrapper fn s =
      (⟨[], false, some F, (applyList s2.stack s2.user (some E)).1⟩,
        Except.error F) := by
  have hexec := executeLoop_tame_async s2.stack htame s2.user (some E)
  simp only [asyncWrapper, catchBlock, hw, Bool.false_eq_true, if_false, hfn, hexec, hcur]

/-- An awaited wrapped call whose body rejects with `E`, with a throw-free
stack in which some action recovered: drained, and the call resolves with
the `undefined` result. -/
lemma asyncWrapper_err_tame_swallow {σ ρ : Type} (fn : Body σ ρ) (s s2 : St σ) (E : Err)
    (hw : s.wrapped = false)
    (hfn : fn { s with wrapped := true, currentError := none } = (s2, Except.error E))
    (htame : ∀ a ∈ s2.stack, Tame a)
    (hcur : (applyList s2.stack s2.user (some E)).2 = none) :
    asyncWrapper fn s =
      (⟨[], false, none, (applyList s2.stack s2.user (some E)).1⟩,
        Except.ok none) := by
  have hexec := executeLoop_tame_async s2.stack htame s2.user (some E)
  simp only [asyncWrapper, catchBlock, hw, Bool.false_eq_true, if_false, hfn, hexec, hcur]

/-- The state an awaited wrapped call leaves behind when its body rejects
with `E` and the stack is throw-free: fully drained, every action's effect
applied, whatever the captured-error slot ends up holding. -/
lemma asyncWrapper_err_tame_state {σ ρ : Type} (fn : Body σ ρ) (s s2 : St σ) (E : Err)
    (hw : s.wrapped = false)
    (hfn : fn { s with wrapped := true, currentError := none } = (s2, Except.error E))
    (htame : ∀ a ∈ s2.stack, Tame a) :
    (asyncWrapper fn s).1 =
      ⟨[], false, (applyList s2.stack s2.user (some E)).2,
        (applyList s2.stack s2.user (some E)).1⟩ := by
  cases hcur : (applyList s2.stack s2.user (some E)).2 with
  | none => rw [asyncWrapper_err_tame_swallow fn s s2 E hw hfn htame hcur]
  | some F => rw [asyncWrapper_err_tame_rethrow fn s s2 E F hw hfn htame hcur]

/-- An awaited wrapped call whose body rejects and whose drain hits a
throwing action after a throw-free prefix: the drain stops there and the
`AsyncExecutionError` propagates, whatever the captured-error slot holds. -/
lemma asyncWrapper_err_drainThrow {σ ρ : Type} (fn : Body σ ρ) (s s2 : St σ) (E e : Err)
    (pre post : List (DAction σ)) (bad : DAction σ)
    (hw : s.wrapped = false)
    (hfn : fn { s with wrapped := true, currentError := none } = (s2, Except.error E))
    (hstack : s2.stack = pre ++ bad :: post)
    (hpre : ∀ a ∈ pre, Tame a)
    (hbad : Throws bad e) :
    asyncWrapper fn s =
      (⟨post, false,
        (bad (applyList pre s2.user (some E)).1 (applyList pre s2.user (some E)).2).currentError,
        (bad (applyList pre s2.user (some E)).1 (applyList pre s2.user (some E)).2).user⟩,
        Except.error (executionError e)) := by
  have happ := executeLoop_append_async pre hpre (bad :: post) s2.user (some E)
  have hb := hbad (applyList pre s2.user (some E)).1 (applyList pre s2.user (some E)).2
  simp only [asyncWrapper, catchBlock, hw, Bool.false_eq_true, if_false, hfn, hstack, happ,
    executeLoop, hb]

end AsyncDeferer

/-! ## Concrete sample errors and actions -/

/-- A sample body error. -/
def boom : Err := ⟨"Error", "boom"⟩

/-- A sample deferred-action error. -/
def bam : Err := ⟨"Error", "bam"⟩

/-- A sync action that calls `recover` and discards the result. -/
def sRec : SyncDeferer.DAction (List Nat) := fun u _ => ⟨u, none, none⟩

/-- A sync action that throws `bam`. -/
def sThrow : SyncDeferer.DAction (List Nat) := fun u c => ⟨u, c, some bam⟩

/-- An async action that calls `recover` and discards the result. -/
def aRec : AsyncDeferer.DAction (List Nat) := fun u _ => ⟨u, none, none⟩

/-- An async action that throws `bam`. -/
def aThrow : AsyncDeferer.DAction (List Nat) := fun u c => ⟨u, c, some bam⟩

/-- A counter-incrementing async action. -/
def incAct (k : Nat) : AsyncDeferer.DAction Nat := fun u c => ⟨u + k, c, none⟩

/-- A plain-variant (`Deferer`) action that logs `0`. -/
def dLog : Deferer.DAction (List Nat) := fun u => ⟨u ++ [0], none⟩

/-! ## Claims -/

/-- **C3**: for any sequence of `N` actions registered via `defer`, a drain
in which no action raises invokes exactly those `N` actions, each exactly
once, in exactly the reverse of registration order, and leaves the stack
empty.  Shown for the sync and async variants with actions that log their
registration index: after registering indices `0..n-1` in order and
draining, the log is exactly the reversed index sequence, the stack is
empty, and nothing was thrown. -/
theorem c3_drain_lifo_each_once_stack_empty (n : Nat) :
    SyncDeferer.execute
        (SyncDeferer.registerAll (List.range n) (SyncDeferer.initSt [])) =
      (⟨[], false, none, (List.range n).reverse⟩, none) ∧
    AsyncDeferer.execute
        (AsyncDeferer.registerAll (List.range n) (AsyncDeferer.initSt [])) =
      (⟨[], false, none, (List.range n).reverse⟩, none) := by
  constructor
  · have h := SyncDeferer.executeLoop_log (List.range n).reverse [] none
    rw [SyncDeferer.registerAll_stack]
    simp only [SyncDeferer.initSt, List.append_nil, SyncDeferer.execute, h]
    simp
  · have h := AsyncDeferer.executeLoop_log_async (List.range n).reverse [] none
    rw [AsyncDeferer.registerAll_stack_async]
    simp only [AsyncDeferer.initSt, List.append_nil, AsyncDeferer.execute, h]
    simp

/-- **C7**: calling a wrapped function while the same stack/instance's
re-entrancy flag is already up fails immediately with the
nested-invocation error; the result does not depend on the body (so the
inner body is never invoked) and the state is returned untouched (both
variants). -/
theorem c7_nested_call_rejected {σ ρ : Type}
    (cp : SyncDeferer.Body σ ρ) (fn : AsyncDeferer.Body σ ρ)
    (s : SyncDeferer.St σ) (t : AsyncDeferer.St σ)
    (hs : s.wrapped = true) (ht : t.wrapped = true) :
    SyncDeferer.wrapper cp s = (s, Except.error SyncDeferer.nestedError) ∧
    AsyncDeferer.asyncWrapper fn t = (t, Except.error AsyncDeferer.nestedError) := by
  constructor
  · simp [SyncDeferer.wrapper, hs]
  · simp [AsyncDeferer.asyncWrapper, ht]

/-- Witness for C7 at a concrete flagged state. -/
theorem c7_nested_call_rejected_witness :
    SyncDeferer.wrapper (fun st => (st, Except.ok 0))
        (⟨[], true, none, (0 : Nat)⟩ : SyncDeferer.St Nat) =
      (⟨[], true, none, 0⟩, Except.error SyncDeferer.nestedError) ∧
    AsyncDeferer.asyncWrapper (fun st => (st, Except.ok 0))
        (⟨[], true, none, (0 : Nat)⟩ : AsyncDeferer.St Nat) =
      (⟨[], true, none, 0⟩, Except.error AsyncDeferer.nestedError) :=
  c7_nested_call_rejected _ _ _ _ rfl rfl

/-- **C8**: `recover()` is a pure state transition on the captured-error
slot: it returns the slot's content and clears it (so a second call in the
same drain returns the absent value); when the slot is already empty it
returns the absent value and changes nothing (both variants). -/
theorem c8_recover_pure_transition {σ : Type}
    (s : SyncDeferer.St σ) (t : AsyncDeferer.St σ) :
    SyncDeferer.recover s = ({ s with currentError := none }, s.currentError) ∧
    (SyncDeferer.recover (SyncDeferer.recover s).1).2 = none ∧
    AsyncDeferer.recover t = ({ t with currentError := none }, t.currentError) ∧
    (AsyncDeferer.recover (AsyncDeferer.recover t).1).2 = none := by
  obtain ⟨ls, ws, cs, us⟩ := s
  obtain ⟨lt, wt, ct, ut⟩ := t
  cases cs <;> cases ct <;> simp [SyncDeferer.recover, AsyncDeferer.recover]

/-- **C4**: a drain in which an invoked action throws `e` stops immediately
at that action: the earlier-registered actions below it are not invoked
(they remain on the stack, and the state reflects only the actions up to
and including the throwing one), and the drain fails with an
`ExecutionError` / `AsyncExecutionError` whose message wraps the action's
original failure message (both variants). -/
theorem c4_drain_stops_at_throwing_action {σ : Type} (u : σ) (c : Option Err) (e e2 : Err)
    (pre post : List (SyncDeferer.DAction σ)) (bad : SyncDeferer.DAction σ)
    (hpre : ∀ a ∈ pre, SyncDeferer.Tame a) (hbad : SyncDeferer.Throws bad e)
    (prea posta : List (AsyncDeferer.DAction σ)) (bada : AsyncDeferer.DAction σ)
    (hprea : ∀ a ∈ prea, AsyncDeferer.Tame a) (hbada : AsyncDeferer.Throws bada e2) :
    SyncDeferer.executeLoop (pre ++ bad :: post) u c =
      ⟨post,
       (bad (SyncDeferer.applyList pre u c).1 (SyncDeferer.applyList pre u c).2).user,
       (bad (SyncDeferer.applyList pre u c).1 (SyncDeferer.applyList pre u c).2).currentError,
       some (SyncDeferer.executionError e)⟩ ∧
    (SyncDeferer.executionError e).message =
      "Error in deferred function: " ++ errString e ∧
    errString e = e.name ++ ": " ++ e.message ∧
    AsyncDeferer.executeLoop (prea ++ bada :: posta) u c =
      ⟨posta,
       (bada (AsyncDeferer.applyList prea u c).1 (AsyncDeferer.applyList prea u c).2).user,
       (bada (AsyncDeferer.applyList prea u c).1 (AsyncDeferer.applyList prea u c).2).currentError,
       some (AsyncDeferer.executionError e2)⟩ ∧
    (AsyncDeferer.executionError e2).message =
      "Error in deferred function: " ++ errString e2 := by
  refine ⟨?_, rfl, rfl, ?_, rfl⟩
  · have hb := hbad (SyncDeferer.applyList pre u c).1 (SyncDeferer.applyList pre u c).2
    rw [SyncDeferer.executeLoop_append pre hpre, SyncDeferer.executeLoop, hb]
  · have hb := hbada (AsyncDeferer.applyList prea u c).1 (AsyncDeferer.applyList prea u c).2
    rw [AsyncDeferer.executeLoop_append_async prea hprea, AsyncDeferer.executeLoop, hb]

/-- Witness for C4: a concrete drain of log, throw, log actions. -/
theorem c4_drain_stops_at_throwing_action_witness :
    SyncDeferer.executeLoop [SyncDeferer.logAct 1, sThrow, SyncDeferer.logAct 2] [] none =
      ⟨[SyncDeferer.logAct 2], [1], none, some (SyncDeferer.executionError bam)⟩ ∧
    AsyncDeferer.executeLoop [AsyncDeferer.logAct 1, aThrow, AsyncDeferer.logAct 2] [] none =
      ⟨[AsyncDeferer.logAct 2], [1], none, some (AsyncDeferer.executionError bam)⟩ := by
  constructor
  · exact (c4_drain_stops_at_throwing_action [] none bam bam
      [SyncDeferer.logAct 1] [SyncDeferer.logAct 2] sThrow
      (by intro a ha; rw [List.mem_singleton] at ha; subst ha; intro u c; rfl)
      (fun _ _ => rfl)
      [AsyncDeferer.logAct 1] [AsyncDeferer.logAct 2] aThrow
      (by intro a ha; rw [List.mem_singleton] at ha; subst ha; intro u c; rfl)
      (fun _ _ => rfl)).1
  · exact (c4_drain_stops_at_throwing_action [] none bam bam
      [SyncDeferer.logAct 1] [SyncDeferer.logAct 2] sThrow
      (by intro a ha; rw [List.mem_singleton] at ha; subst ha; intro u c; rfl)
      (fun _ _ => rfl)
      [AsyncDeferer.logAct 1] [AsyncDeferer.logAct 2] aThrow
      (by intro a ha; rw [List.mem_singleton] at ha; subst ha; intro u c; rfl)
      (fun _ _ => rfl)).2.2.2.1

/-- Sync body registering one logging action, then throwing `boom`. -/
def sBodyLog : SyncDeferer.Body (List Nat) Nat :=
  fun st => (SyncDeferer.defer (SyncDeferer.logAct 0) st, Except.error boom)

/-- Sync body registering one recovering action, then throwing `boom`. -/
def sBodyRec : SyncDeferer.Body (List Nat) Nat :=
  fun st => (SyncDeferer.defer sRec st, Except.error boom)

/-- Sync body registering a throwing action and a recovering action above
it, then throwing `boom`. -/
def sBodyRecThrow : SyncDeferer.Body (List Nat) Nat :=
  fun st => (SyncDeferer.defer sRec (SyncDeferer.defer sThrow st), Except.error boom)

/-- Async body registering one logging action, then rejecting with `boom`. -/
def aBodyLog : AsyncDeferer.Body (List Nat) Nat :=
  fun st => (AsyncDeferer.defer (AsyncDeferer.logAct 0) st, Except.error boom)

/-- Async body registering one recovering action, then rejecting with `boom`. -/
def aBodyRec : AsyncDeferer.Body (List Nat) Nat :=
  fun st => (AsyncDeferer.defer aRec st, Except.error boom)

/-- Async body registering a throwing action and a recovering action above
it, then rejecting with `boom`. -/
def aBodyRecThrow : AsyncDeferer.Body (List Nat) Nat :=
  fun st => (AsyncDeferer.defer aRec (AsyncDeferer.defer aThrow st), Except.error boom)

/-- Plain-variant (`Deferer`) body registering one logging action, then
throwing `boom`. -/
def dBodyLog : Deferer.Body (List Nat) Nat :=
  fun st => (Deferer.defer dLog st, Except.error boom)

/-- **C2**: for a wrapped call whose body raises `E` and whose drain
completes without any action raising: if no action calls `recover` (the
captured-error slot is left untouched by every action), the call re-raises
exactly `E`, unchanged; if the actions at most clear the slot and at least
one of them does call `recover` (clearing it), the call returns the absent
result and does not raise (both variants). -/
theorem c2_rethrow_unless_recovered {σ ρ : Type} (E E2 : Err)
    (cp : SyncDeferer.Body σ ρ) (s s2 : SyncDeferer.St σ)
    (hw : s.wrapped = false)
    (hcp : cp { s with wrapped := true, currentError := none } = (s2, Except.error E))
    (htame : ∀ a ∈ s2.stack, SyncDeferer.Tame a)
    (fn : AsyncDeferer.Body σ ρ) (t t2 : AsyncDeferer.St σ)
    (hwa : t.wrapped = false)
    (hfn : fn { t with wrapped := true, currentError := none } = (t2, Except.error E2))
    (htamea : ∀ a ∈ t2.stack, AsyncDeferer.Tame a) :
    ((∀ a ∈ s2.stack, SyncDeferer.NoRecover a) →
      (SyncDeferer.wrapper cp s).2 = Except.error E) ∧
    ((∀ a ∈ s2.stack, SyncDeferer.NoRecover a ∨ SyncDeferer.Clears a) →
      (∃ a ∈ s2.stack, SyncDeferer.Clears a) →
      (SyncDeferer.wrapper cp s).2 = Except.ok none) ∧
    ((∀ a ∈ t2.stack, AsyncDeferer.NoRecover a) →
      (AsyncDeferer.asyncWrapper fn t).2 = Except.error E2) ∧
    ((∀ a ∈ t2.stack, AsyncDeferer.NoRecover a ∨ AsyncDeferer.Clears a) →
      (∃ a ∈ t2.stack, AsyncDeferer.Clears a) →
      (AsyncDeferer.asyncWrapper fn t).2 = Except.ok none) := by
  refine ⟨?_, ?_, ?_, ?_⟩
  · intro hnr
    rw [SyncDeferer.wrapper_err_tame_rethrow cp s s2 E E hw hcp htame
      (SyncDeferer.applyList_noRecover s2.stack hnr s2.user (some E))]
  · intro hor hex
    rw [SyncDeferer.wrapper_err_tame_swallow cp s s2 E hw hcp htame
      (SyncDeferer.applyList_clears s2.stack hor hex s2.user (some E))]
  · intro hnr
    rw [AsyncDeferer.asyncWrapper_err_tame_rethrow fn t t2 E2 E2 hwa hfn htamea
      (AsyncDeferer.applyList_noRecover_async t2.stack hnr t2.user (some E2))]
  · intro hor hex
    rw [AsyncDeferer.asyncWrapper_err_tame_swallow fn t t2 E2 hwa hfn htamea
      (AsyncDeferer.applyList_clears_async t2.stack hor hex t2.user (some E2))]

/-- Witness for C2: a body that throws `boom` with one non-recovering
logging action re-raises `boom`; with one recovering action it returns the
absent result (both variants, concretely). -/
theorem c2_rethrow_unless_recovered_witness :
    (SyncDeferer.wrapper sBodyLog (SyncDeferer.initSt [])).2 = Except.error boom ∧
    (SyncDeferer.wrapper sBodyRec (SyncDeferer.initSt [])).2 = Except.ok none ∧
    (AsyncDeferer.asyncWrapper aBodyLog (AsyncDeferer.initSt [])).2 = Except.error boom ∧
    (AsyncDeferer.asyncWrapper aBodyRec (AsyncDeferer.initSt [])).2 = Except.ok none := by
  have h1 := c2_rethrow_unless_recovered boom boom sBodyLog
    (SyncDeferer.initSt []) ⟨[SyncDeferer.logAct 0], true, none, []⟩ rfl rfl
    (List.forall_mem_singleton.mpr (fun _ _ => rfl))
    aBodyLog (AsyncDeferer.initSt []) ⟨[AsyncDeferer.logAct 0], true, none, []⟩ rfl rfl
    (List.forall_mem_singleton.mpr (fun _ _ => rfl))
  have h2 := c2_rethrow_unless_recovered boom boom sBodyRec
    (SyncDeferer.initSt []) ⟨[sRec], true, none, []⟩ rfl rfl
    (List.forall_mem_singleton.mpr (fun _ _ => rfl))
    aBodyRec (AsyncDeferer.initSt []) ⟨[aRec], true, none, []⟩ rfl rfl
    (List.forall_mem_singleton.mpr (fun _ _ => rfl))
  exact ⟨h1.1 (List.forall_mem_singleton.mpr (fun _ _ => rfl)),
    h2.2.1 (List.forall_mem_singleton.mpr (Or.inr (fun _ _ => rfl)))
      ⟨sRec, List.mem_singleton_self sRec, fun _ _ => rfl⟩,
    h1.2.2.1 (List.forall_mem_singleton.mpr (fun _ _ => rfl)),
    h2.2.2.2 (List.forall_mem_singleton.mpr (Or.inr (fun _ _ => rfl)))
      ⟨aRec, List.mem_singleton_self aRec, fun _ _ => rfl⟩⟩

/-- **C5**: when the body raises and the drain itself raises (a deferred
action failed), the wrapped call propagates the drain's ExecutionError /
AsyncExecutionError, even when an action earlier in the same drain (in the
throw-free prefix above the failing action) had already called `recover`
and cleared the captured body failure — the recovery is discarded (both
variants). -/
theorem c5_drain_failure_overrides_recovery {σ ρ : Type} (E E2 e e2 : Err)
    (cp : SyncDeferer.Body σ ρ) (s s2 : SyncDeferer.St σ)
    (pre post : List (SyncDeferer.DAction σ)) (bad : SyncDeferer.DAction σ)
    (hw : s.wrapped = false)
    (hcp : cp { s with wrapped := true, currentError := none } = (s2, Except.error E))
    (hstack : s2.stack = pre ++ bad :: post)
    (hpre : ∀ a ∈ pre, SyncDeferer.Tame a)
    (_hrec : ∃ a ∈ pre, SyncDeferer.Clears a)
    (hbad : SyncDeferer.Throws bad e)
    (fn : AsyncDeferer.Body σ ρ) (t t2 : AsyncDeferer.St σ)
    (prea posta : List (AsyncDeferer.DAction σ)) (bada : AsyncDeferer.DAction σ)
    (hwa : t.wrapped = false)
    (hfn : fn { t with wrapped := true, currentError := none } = (t2, Except.error E2))
    (hstacka : t2.stack = prea ++ bada :: posta)
    (hprea : ∀ a ∈ prea, AsyncDeferer.Tame a)
    (_hreca : ∃ a ∈ prea, AsyncDeferer.Clears a)
    (hbada : AsyncDeferer.Throws bada e2) :
    (SyncDeferer.wrapper cp s).2 = Except.error (SyncDeferer.executionError e) ∧
    (AsyncDeferer.asyncWrapper fn t).2 = Except.error (AsyncDeferer.executionError e2) := by
  constructor
  · rw [SyncDeferer.wrapper_err_drainThrow cp s s2 E e pre post bad hw hcp hstack hpre hbad]
  · rw [AsyncDeferer.asyncWrapper_err_drainThrow fn t t2 E2 e2 prea posta bada hwa hfn
      hstacka hprea hbada]

/-- Witness for C5: the body throws `boom`; the top action recovers it, the
next action throws `bam`; the call still fails with the wrapping execution
error (both variants, concretely). -/
theorem c5_drain_failure_overrides_recovery_witness :
    (SyncDeferer.wrapper sBodyRecThrow (SyncDeferer.initSt [])).2 =
      Except.error (SyncDeferer.executionError bam) ∧
    (AsyncDeferer.asyncWrapper aBodyRecThrow (AsyncDeferer.initSt [])).2 =
      Except.error (AsyncDeferer.executionError bam) :=
  c5_drain_failure_overrides_recovery boom boom bam bam
    sBodyRecThrow (SyncDeferer.initSt []) ⟨[sRec, sThrow], true, none, []⟩
    [sRec] [] sThrow rfl rfl rfl
    (List.forall_mem_singleton.mpr (fun _ _ => rfl))
    ⟨sRec, List.mem_singleton_self sRec, fun _ _ => rfl⟩
    (fun _ _ => rfl)
    aBodyRecThrow (AsyncDeferer.initSt []) ⟨[aRec, aThrow], true, none, []⟩
    [aRec] [] aThrow rfl rfl rfl
    (List.forall_mem_singleton.mpr (fun _ _ => rfl))
    ⟨aRec, List.mem_singleton_self aRec, fun _ _ => rfl⟩
    (fun _ _ => rfl)

/-- **C10**: when a wrapped call re-raises an unrecovered body failure, the
captured-error slot is not cleared on exit: after the call has thrown it
still holds that failure, so a `recover()` made outside any invocation
returns the stale failure; the slot is only reset at the start of the next
top-level invocation, whose body then observes it clear (both variants). -/
theorem c10_stale_captured_failure_after_rethrow {σ ρ : Type} (E E2 : Err)
    (cp : SyncDeferer.Body σ ρ) (s s2 : SyncDeferer.St σ)
    (hw : s.wrapped = false)
    (hcp : cp { s with wrapped := true, currentError := none } = (s2, Except.error E))
    (htame : ∀ a ∈ s2.stack, SyncDeferer.Tame a)
    (hnr : ∀ a ∈ s2.stack, SyncDeferer.NoRecover a)
    (fn : AsyncDeferer.Body σ ρ) (t t2 : AsyncDeferer.St σ)
    (hwa : t.wrapped = false)
    (hfn : fn { t with wrapped := true, currentError := none } = (t2, Except.error E2))
    (htamea : ∀ a ∈ t2.stack, AsyncDeferer.Tame a)
    (hnra : ∀ a ∈ t2.stack, AsyncDeferer.NoRecover a) :
    (SyncDeferer.wrapper cp s).2 = Except.error E ∧
    (SyncDeferer.wrapper cp s).1.currentError = some E ∧
    (SyncDeferer.recover (SyncDeferer.wrapper cp s).1).2 = some E ∧
    (SyncDeferer.wrapper (fun st => (st, Except.ok st.currentError))
      (SyncDeferer.wrapper cp s).1).2 = Except.ok (some none) ∧
    (AsyncDeferer.asyncWrapper fn t).2 = Except.error E2 ∧
    (AsyncDeferer.asyncWrapper fn t).1.currentError = some E2 ∧
    (AsyncDeferer.recover (AsyncDeferer.asyncWrapper fn t).1).2 = some E2 ∧
    (AsyncDeferer.asyncWrapper (fun st => (st, Except.ok st.currentError))
      (AsyncDeferer.asyncWrapper fn t).1).2 = Except.ok (some none) := by
  have hfin := SyncDeferer.wrapper_err_tame_rethrow cp s s2 E E hw hcp htame
    (SyncDeferer.applyList_noRecover s2.stack hnr s2.user (some E))
  have hfina := AsyncDeferer.asyncWrapper_err_tame_rethrow fn t t2 E2 E2 hwa hfn htamea
    (AsyncDeferer.applyList_noRecover_async t2.stack hnra t2.user (some E2))
  rw [hfin, hfina]
  exact ⟨rfl, rfl, rfl, rfl, rfl, rfl, rfl, rfl⟩

/-- Witness for C10: the body throws `boom` with one non-recovering logging
action; after the call, an out-of-invocation `recover` still returns
`boom`, and the next invocation's body sees a clear slot. -/
theorem c10_stale_captured_failure_after_rethrow_witness :
    (SyncDeferer.recover (SyncDeferer.wrapper sBodyLog (SyncDeferer.initSt [])).1).2 =
      some boom ∧
    (SyncDeferer.wrapper (fun st => (st, Except.ok st.currentError))
      (SyncDeferer.wrapper sBodyLog (SyncDeferer.initSt [])).1).2 = Except.ok (some none) ∧
    (AsyncDeferer.recover
      (AsyncDeferer.asyncWrapper aBodyLog (AsyncDeferer.initSt [])).1).2 = some boom ∧
    (AsyncDeferer.asyncWrapper (fun st => (st, Except.ok st.currentError))
      (AsyncDeferer.asyncWrapper aBodyLog (AsyncDeferer.initSt [])).1).2 =
      Except.ok (some none) := by
  have h := c10_stale_captured_failure_after_rethrow boom boom sBodyLog
    (SyncDeferer.initSt []) ⟨[SyncDeferer.logAct 0], true, none, []⟩ rfl rfl
    (List.forall_mem_singleton.mpr (fun _ _ => rfl))
    (List.forall_mem_singleton.mpr (fun _ _ => rfl))
    aBodyLog (AsyncDeferer.initSt []) ⟨[AsyncDeferer.logAct 0], true, none, []⟩ rfl rfl
    (List.forall_mem_singleton.mpr (fun _ _ => rfl))
    (List.forall_mem_singleton.mpr (fun _ _ => rfl))
  exact ⟨h.2.2.1, h.2.2.2.1, h.2.2.2.2.2.2.1, h.2.2.2.2.2.2.2⟩

/-- **C9**: in the asynchronous variant the drain awaits each deferred
action to full completion before invoking the next, in LIFO order — in the
sequential embedding, a throw-free drain is exactly the one-at-a-time
composition of the actions' complete effects in stack order, ending with an
empty stack — and the concrete scenario holds: a body that registers an
action incrementing a counter by 10 (its suspension immaterial once
awaited) and then a non-suspending action incrementing it by 5 completes
with the counter equal to 15. -/
theorem c9_async_drain_awaits_each_action (u : Nat) (c : Option Err)
    (l : List (AsyncDeferer.DAction Nat)) (htame : ∀ a ∈ l, AsyncDeferer.Tame a) :
    AsyncDeferer.executeLoop l u c =
      ⟨[], (AsyncDeferer.applyList l u c).1, (AsyncDeferer.applyList l u c).2, none⟩ ∧
    AsyncDeferer.asyncWrapper
        (fun st => (AsyncDeferer.defer (incAct 5) (AsyncDeferer.defer (incAct 10) st),
          Except.ok 0))
        (AsyncDeferer.initSt 0) =
      (⟨[], false, none, 15⟩, Except.ok (some 0)) :=
  ⟨AsyncDeferer.executeLoop_tame_async l htame u c, rfl⟩

/-- Witness for C9 at a concrete throw-free action list. -/
theorem c9_async_drain_awaits_each_action_witness :
    AsyncDeferer.executeLoop [incAct 10] 0 none = ⟨[], 10, none, none⟩ :=
  (c9_async_drain_awaits_each_action 0 none [incAct 10]
    (List.forall_mem_singleton.mpr (fun _ _ => rfl))).1

/-- Counterexample to C1 as stated: in the plain `Deferer` synchronous
variant (src/defer.ts), a wrapped call whose body registers one deferred
action and then raises propagates the body's failure with the action never
invoked — the log is still empty and the action still pending on the stack
— because `Deferer.wrapper` has no catch clause and never drains on a body
throw. -/
theorem c1_deferer_counterexample :
    Deferer.wrapper dBodyLog (Deferer.initSt []) =
      (⟨[dLog], false, []⟩, Except.error boom) := rfl

/-- **C1 (amended)**: in the `SyncDeferer` and `AsyncDeferer` variants,
cleanup actions registered via `defer` run whether the body finishes by
normal return or by raising: with a throw-free stack, a body raise leads to
the whole stack being drained (stack left empty, every action's effect
applied in LIFO order) before the captured failure, any failure replacing
it, or the recovered result reaches the caller, and a normal return
likewise drains the whole stack before the value is returned.  (Not so in
the plain `Deferer` variant, where a body raise skips the drain.) -/
theorem c1_sync_async_drain_before_return {σ ρ : Type} (E E2 : Err) (v v2 : ρ)
    (cp : SyncDeferer.Body σ ρ) (s s2 : SyncDeferer.St σ)
    (hw : s.wrapped = false)
    (hcp : cp { s with wrapped := true, currentError := none } = (s2, Except.error E))
    (htame : ∀ a ∈ s2.stack, SyncDeferer.Tame a)
    (cp2 : SyncDeferer.Body σ ρ) (r r2 : SyncDeferer.St σ)
    (hwr : r.wrapped = false)
    (hcp2 : cp2 { r with wrapped := true, currentError := none } = (r2, Except.ok v))
    (htamer : ∀ a ∈ r2.stack, SyncDeferer.Tame a)
    (fn : AsyncDeferer.Body σ ρ) (t t2 : AsyncDeferer.St σ)
    (hwa : t.wrapped = false)
    (hfn : fn { t with wrapped := true, currentError := none } = (t2, Except.error E2))
    (htamea : ∀ a ∈ t2.stack, AsyncDeferer.Tame a)
    (fn2 : AsyncDeferer.Body σ ρ) (q q2 : AsyncDeferer.St σ)
    (hwq : q.wrapped = false)
    (hfn2 : fn2 { q with wrapped := true, currentError := none } = (q2, Except.ok v2))
    (htameq : ∀ a ∈ q2.stack, AsyncDeferer.Tame a) :
    ((SyncDeferer.wrapper cp s).1.stack = [] ∧
     (SyncDeferer.wrapper cp s).1.user =
       (SyncDeferer.applyList s2.stack s2.user (some E)).1) ∧
    SyncDeferer.wrapper cp2 r =
      (⟨[], false, (SyncDeferer.applyList r2.stack r2.user r2.currentError).2,
        (SyncDeferer.applyList r2.stack r2.user r2.currentError).1⟩,
       Except.ok (some v)) ∧
    ((AsyncDeferer.asyncWrapper fn t).1.stack = [] ∧
     (AsyncDeferer.asyncWrapper fn t).1.user =
       (AsyncDeferer.applyList t2.stack t2.user (some E2)).1) ∧
    AsyncDeferer.asyncWrapper fn2 q =
      (⟨[], false, (AsyncDeferer.applyList q2.stack q2.user q2.currentError).2,
        (AsyncDeferer.applyList q2.stack q2.user q2.currentError).1⟩,
       Except.ok (some v2)) := by
  have h1 := SyncDeferer.wrapper_err_tame_state cp s s2 E hw hcp htame
  have h2 := AsyncDeferer.asyncWrapper_err_tame_state fn t t2 E2 hwa hfn htamea
  refine ⟨⟨?_, ?_⟩, ?_, ⟨?_, ?_⟩, ?_⟩
  · rw [h1]
  · rw [h1]
  · exact SyncDeferer.wrapper_ok_tame cp2 r r2 v hwr hcp2 htamer
  · rw [h2]
  · rw [h2]
  · exact AsyncDeferer.asyncWrapper_ok_tame fn2 q q2 v2 hwq hfn2 htameq

/-- Witness for the amended C1: concrete raising and returning bodies with
one logging action each; in all four cases the action has run and the
stack is empty when control returns. -/
theorem c1_sync_async_drain_before_return_witness :
    ((SyncDeferer.wrapper sBodyLog (SyncDeferer.initSt [])).1.stack = [] ∧
     (SyncDeferer.wrapper sBodyLog (SyncDeferer.initSt [])).1.user = [0]) ∧
    SyncDeferer.wrapper
        (fun st => (SyncDeferer.defer (SyncDeferer.logAct 0) st, Except.ok 3))
        (SyncDeferer.initSt []) =
      (⟨[], false, none, [0]⟩, Except.ok (some 3)) ∧
    ((AsyncDeferer.asyncWrapper aBodyLog (AsyncDeferer.initSt [])).1.stack = [] ∧
     (AsyncDeferer.asyncWrapper aBodyLog (AsyncDeferer.initSt [])).1.user = [0]) ∧
    AsyncDeferer.asyncWrapper
        (fun st => (AsyncDeferer.defer (AsyncDeferer.logAct 0) st, Except.ok 3))
        (AsyncDeferer.initSt []) =
      (⟨[], false, none, [0]⟩, Except.ok (some 3)) :=
  c1_sync_async_drain_before_return boom boom 3 3 sBodyLog
    (SyncDeferer.initSt []) ⟨[SyncDeferer.logAct 0], true, none, []⟩ rfl rfl
    (List.forall_mem_singleton.mpr (fun _ _ => rfl))
    (fun st => (SyncDeferer.defer (SyncDeferer.logAct 0) st, Except.ok 3))
    (SyncDeferer.initSt []) ⟨[SyncDeferer.logAct 0], true, none, []⟩ rfl rfl
    (List.forall_mem_singleton.mpr (fun _ _ => rfl))
    aBodyLog (AsyncDeferer.initSt []) ⟨[AsyncDeferer.logAct 0], true, none, []⟩ rfl rfl
    (List.forall_mem_singleton.mpr (fun _ _ => rfl))
    (fun st => (AsyncDeferer.defer (AsyncDeferer.logAct 0) st, Except.ok 3))
    (AsyncDeferer.initSt []) ⟨[AsyncDeferer.logAct 0], true, none, []⟩ rfl rfl
    (List.forall_mem_singleton.mpr (fun _ _ => rfl))

/-- Sync body that registers a logging action, then a throwing action on
top of it, and then throws `boom`: the catch-block drain stops at the
throwing action, and no further drain runs in that invocation. -/
def c6BodyOne : SyncDeferer.Body (List Nat) Nat :=
  fun st => (SyncDeferer.defer sThrow (SyncDeferer.defer (SyncDeferer.logAct 7) st),
    Except.error boom)

/-- Sync body that registers nothing and returns normally. -/
def c6BodyTwo : SyncDeferer.Body (List Nat) Nat := fun st => (st, Except.ok 1)

/-- Counterexample to C6 as stated: a wrapped call whose body throws and
whose catch-block drain ends early (the top action throws) finishes with
the stack still holding the action below — the drain did not empty it, and
the log shows that action never ran — and the leftover action survives
into the next top-level invocation, whose drain runs it (the second call's
log contains the first call's pending entry). -/
theorem c6_counterexample :
    (SyncDeferer.wrapper c6BodyOne (SyncDeferer.initSt [])).1.stack.length = 1 ∧
    (SyncDeferer.wrapper c6BodyOne (SyncDeferer.initSt [])).1.user = [] ∧
    (SyncDeferer.wrapper c6BodyTwo
      (SyncDeferer.wrapper c6BodyOne (SyncDeferer.initSt [])).1).1.user = [7] :=
  ⟨rfl, rfl, rfl⟩

/-- **C6 (amended)**: the deferred stack is created empty (sync: at module
load; async: at instance construction) and a drain in which no invoked
action raises empties it completely; but when the last drain of an
invocation ends early because an action raised — as on the body-failure
path, where nothing follows the catch-block drain — the actions below the
raising one remain on the stack and persist into the next top-level
invocation, whose drain then runs them. -/
theorem c6_amended_stack_lifecycle {σ ρ : Type} (u : σ) (c : Option Err) (e E : Err)
    (l : List (SyncDeferer.DAction σ)) (hl : ∀ a ∈ l, SyncDeferer.Tame a)
    (la : List (AsyncDeferer.DAction σ)) (hla : ∀ a ∈ la, AsyncDeferer.Tame a)
    (cp : SyncDeferer.Body σ ρ) (s s2 : SyncDeferer.St σ)
    (pre post : List (SyncDeferer.DAction σ)) (bad : SyncDeferer.DAction σ)
    (hw : s.wrapped = false)
    (hcp : cp { s with wrapped := true, currentError := none } = (s2, Except.error E))
    (hstack : s2.stack = pre ++ bad :: post)
    (hpre : ∀ a ∈ pre, SyncDeferer.Tame a)
    (hbad : SyncDeferer.Throws bad e)
    (hpost : ∀ a ∈ post, SyncDeferer.Tame a) :
    (SyncDeferer.initSt u).stack = [] ∧
    (AsyncDeferer.initSt u).stack = [] ∧
    (SyncDeferer.executeLoop l u c).stack = [] ∧
    (AsyncDeferer.executeLoop la u c).stack = [] ∧
    (SyncDeferer.wrapper cp s).1.stack = post ∧
    (SyncDeferer.wrapper (fun st => (st, Except.ok 0))
      (SyncDeferer.wrapper cp s).1).1.stack = [] ∧
    (SyncDeferer.wrapper (fun st => (st, Except.ok 0))
      (SyncDeferer.wrapper cp s).1).1.user =
      (SyncDeferer.applyList post (SyncDeferer.wrapper cp s).1.user none).1 := by
  have hdt := SyncDeferer.wrapper_err_drainThrow cp s s2 E e pre post bad hw hcp
    hstack hpre hbad
  have hok := SyncDeferer.wrapper_ok_tame (ρ := Nat) (fun st => (st, Except.ok 0))
    ⟨post, false,
      (bad (SyncDeferer.applyList pre s2.user (some E)).1
        (SyncDeferer.applyList pre s2.user (some E)).2).currentError,
      (bad (SyncDeferer.applyList pre s2.user (some E)).1
        (SyncDeferer.applyList pre s2.user (some E)).2).user⟩
    ⟨post, true, none,
      (bad (SyncDeferer.applyList pre s2.user (some E)).1
        (SyncDeferer.applyList pre s2.user (some E)).2).user⟩
    0 rfl rfl hpost
  refine ⟨rfl, rfl, ?_, ?_, ?_, ?_, ?_⟩
  · rw [SyncDeferer.executeLoop_tame l hl]
  · rw [AsyncDeferer.executeLoop_tame_async la hla]
  · rw [hdt]
  · rw [hdt, hok]
  · rw [hdt, hok]

/-- Witness for the amended C6: one throw-free drain empties the stack; the
concrete first invocation (body throws `boom`, drain stops at `sThrow`)
leaves `logAct 7` pending; the next invocation drains it and its log entry
appears. -/
theorem c6_amended_stack_lifecycle_witness :
    (SyncDeferer.executeLoop [SyncDeferer.logAct 0] [] none).stack = [] ∧
    (SyncDeferer.wrapper c6BodyOne (SyncDeferer.initSt [])).1.stack =
      [SyncDeferer.logAct 7] ∧
    (SyncDeferer.wrapper (fun st => (st, Except.ok 0))
      (SyncDeferer.wrapper c6BodyOne (SyncDeferer.initSt [])).1).1.stack = [] ∧
    (SyncDeferer.wrapper (fun st => (st, Except.ok 0))
      (SyncDeferer.wrapper c6BodyOne (SyncDeferer.initSt [])).1).1.user = [7] := by
  have h := c6_amended_stack_lifecycle ([] : List Nat) none bam boom
    [SyncDeferer.logAct 0] (List.forall_mem_singleton.mpr (fun _ _ => rfl))
    [AsyncDeferer.logAct 0] (List.forall_mem_singleton.mpr (fun _ _ => rfl))
    c6BodyOne (SyncDeferer.initSt []) ⟨[sThrow, SyncDeferer.logAct 7], true, none, []⟩
    [] [SyncDeferer.logAct 7] sThrow rfl rfl rfl
    (by intro a ha; exact absurd ha (List.not_mem_nil a))
    (fun _ _ => rfl)
    (List.forall_mem_singleton.mpr (fun _ _ => rfl))
  exact ⟨h.2.2.1, h.2.2.2.2.1, h.2.2.2.2.2.1, h.2.2.2.2.2.2⟩
